import Mathlib

/-!
Shallow embedding of `src/polarion/record.py` (class `Record`): a local
projection of one Polarion test record, with its field bag, the
save/reload protocol, per-step results and attachment access.

Modelling conventions:
* A Python object's `__dict__` of public attributes is an association list
  `List (String × Value)` with Python-dict update semantics (`setattr`
  overwrites in place, appends when absent; `getattr` finds the entry).
  The underscore-prefixed attributes set in `__init__` /
  `_buildWorkitemFromPolarion` (`_polarion`, `_test_run`,
  `_polarion_record`, `_index`, `_testcase`, `_testcase_name`, `_defect`)
  are modelled as named structure fields of `Record`; they are exactly the
  attributes whose names start with an underscore, which `save` filters out.
* Attribute values are the inductive `Value`: Python `None`, strings,
  `EnumOptionIdType` (a `result` holder), `TextType` (rich-text comment),
  `ArrayOfTestStepResultType` (list of step results),
  `ArrayOfTestRunAttachment` (list of attachments), or an uninterpreted
  payload value (`blob`).
* The remote service and HTTP transport are an explicit environment `Env`;
  every method returns the list of service calls it issued (its trace).
  Python exceptions are `Except (RecErr × Record) Record`: an error carries
  the object's state at raise time (the Python object survives the raise).
* Python `step_number` is an `Int`; list indexing follows Python semantics
  (negative indices address from the end, `IndexError` otherwise).
-/

namespace Polarion

/-- `TextType(content=…, type=…, contentLossy=…)` as built by the client. -/
structure TextValue where
  content : String
  ty : String
  contentLossy : Bool
deriving DecidableEq

/-- One entry of the record's attachments collection (`fileName`, `url`). -/
structure Attachment where
  fileName : String
  url : String
deriving DecidableEq

/-- One `TestStepResultType`: optional result id holder, optional comment.
A fresh `TestStepResultType()` has both unset (Python `None`). -/
structure TestStepResult where
  result : Option (Option String)
  comment : Option TextValue
deriving DecidableEq

/-- Values stored in the record's field bag. -/
inductive Value where
  | none
  | str (s : String)
  | enumOptionId (id : Option String)
  | text (t : TextValue)
  | stepResults (steps : List TestStepResult)
  | attachments (entries : List Attachment)
  | blob (tag : Nat)
deriving DecidableEq

/-- The raw record payload from Polarion (`_polarion_record`): its
`__dict__` is a mapping from attribute names to sub-mappings, flattened
into the record's field bag; `testCaseURI` and `defectURI` are the two
attributes read directly (`none` models an absent `testCaseURI`, which
raises in Python). -/
structure Payload where
  attrs : List (String × List (String × Value))
  testCaseURI : Option String
  defectURI : Value
deriving DecidableEq

/-- The in-memory record object. `testRunUri` and `index` are the identity
(`self._test_run.uri`, `self._index`); `polarionRecord`, `testcase`,
`testcaseName`, `defect` model `_polarion_record`, `_testcase`,
`_testcase_name`, `_defect`; `dict` holds every attribute set with
`setattr` (the payload projection plus local mutations). -/
structure Record where
  testRunUri : String
  index : Int
  polarionRecord : Payload
  testcase : String
  testcaseName : String
  defect : Value
  dict : List (String × Value)
deriving DecidableEq

/-- `Record.ResultType` enum: `No = None`, `PASSED = 'passed'`,
`FAILED = 'failed'`, `BLOCKED = 'blocked'`. -/
inductive ResultType where
  | No
  | PASSED
  | FAILED
  | BLOCKED
deriving DecidableEq

/-- `ResultType.value` (the Python enum member's value). -/
def ResultType.value : ResultType → Option String
  | .No => Option.none
  | .PASSED => some "passed"
  | .FAILED => some "failed"
  | .BLOCKED => some "blocked"

/-- `ResultType(x)` enum lookup: `none` models Python's `ValueError`. -/
def ResultType.ofId : Option String → Option ResultType
  | Option.none => some ResultType.No
  | some "passed" => some ResultType.PASSED
  | some "failed" => some ResultType.FAILED
  | some "blocked" => some ResultType.BLOCKED
  | some _ => Option.none

/-- Python exceptions raised by the record's methods, under the spec's
names where it names them. -/
inductive RecErr where
  | malformedReference
  | remoteWriteFailure
  | attachmentNotFound
  | attachmentDownloadFailed
  | localFileNotFound
  | attributeError
  | indexError
  | valueError
  | unmodeled
deriving DecidableEq

/-- One remote call issued through `self._polarion.getService(…)`. -/
inductive ServiceCall where
  | executeTest (uri : String) (bag : List (String × Value))
  | getTestCaseRecords (uri : String) (testcase : String)
  | getTestSteps (testCaseURI : Value)
  | addAttachmentToTestRecord (uri : String) (index : Int)
      (fileName : String) (title : String) (content : List Nat)
  | deleteAttachmentFromTestRecord (uri : String) (index : Int)
      (fileName : String)
deriving DecidableEq

/-- An HTTP response for an attachment download: `ok` flag and raw bytes. -/
structure HttpResp where
  ok : Bool
  content : List Nat
deriving DecidableEq

/-- The external world: the test-management service and local files.
`stepsCount` is `getTestSteps`' answer (`none` models `steps = None`);
`serverStore bag` is the payload a reload sees after `executeTest bag`
was accepted; `fetchPayload` is the payload seen by reloads after
attachment operations; `executeTestFails` makes `executeTest` raise;
`readFile` is the local filesystem. -/
structure Env where
  stepsCount : Option Nat
  serverStore : List (String × Value) → Payload
  fetchPayload : Payload
  executeTestFails : Bool
  readFile : String → Option (List Nat)

/-- Python `getattr`: first entry with the key. -/
def getattr : List (String × Value) → String → Option Value
  | [], _ => Option.none
  | (k', v) :: d, k => if k' = k then some v else getattr d k

/-- Python `setattr` on a dict-backed object: overwrite in place if the
key is present, append otherwise. -/
def setattr : List (String × Value) → String → Value → List (String × Value)
  | [], k, v => [(k, v)]
  | (k', v') :: d, k, v =>
      if k' = k then (k, v) :: d else (k', v') :: setattr d k v

/-- The flattening loop of `_buildWorkitemFromPolarion`:
`for attr, value in record.__dict__.items(): for key in value: setattr`. -/
def flattenInto (d : List (String × Value))
    (attrs : List (String × List (String × Value))) : List (String × Value) :=
  attrs.foldl (fun d kvs => kvs.2.foldl (fun d kv => setattr d kv.1 kv.2) d) d

/-- Python `s.split(c)` for a one-character separator, over `s.data`. -/
def splitOnChar (c : Char) : List Char → List (List Char)
  | [] => [[]]
  | x :: xs =>
      if x = c then [] :: splitOnChar c xs
      else
        match splitOnChar c xs with
        | h :: t => (x :: h) :: t
        | [] => [[x]]

/-- Result-with-state of a record method: an error carries the object's
state at raise time, paired with the trace of service calls issued. -/
abbrev MethodResult := Except (RecErr × Record) Record × List ServiceCall

/-- `Record._buildWorkitemFromPolarion`: flatten every sub-mapping of the
payload into the field bag, then set `_testcase` from `testCaseURI`,
derive `_testcase_name` as element 1 of the split on the brace, and set
`_defect`. An absent `testCaseURI` or a split with fewer than two parts
raises (spec: `MalformedReference`). -/
def buildWorkitem (r : Record) : Except (RecErr × Record) Record :=
  match r.polarionRecord.testCaseURI with
  | Option.none =>
      .error (.malformedReference,
        { r with dict := (flattenInto r.dict r.polarionRecord.attrs) })
  | some uri =>
    match splitOnChar (Char.ofNat 125) uri.data with
    | _ :: nm :: _ =>
        .ok { r with
              dict := (flattenInto r.dict r.polarionRecord.attrs),
              testcase := uri,
              testcaseName := (String.mk nm),
              defect := r.polarionRecord.defectURI }
    | _ =>
        .error (.malformedReference,
          { r with
            dict := (flattenInto r.dict r.polarionRecord.attrs),
            testcase := uri })

/-- `Record.__init__`: store identity and payload, then build. The
placeholder values stand for attributes not yet set. -/
def Record.init (testRunUri : String) (index : Int) (p : Payload) :
    Except (RecErr × Record) Record :=
  buildWorkitem
    { testRunUri := testRunUri, index := index, polarionRecord := p,
      testcase := "", testcaseName := "", defect := Value.none, dict := [] }

/-- `Record._reloadFromPolarion` with `p` the payload the service returns:
issue `getTestCaseRecords` and rebuild. -/
def reloadFromPolarion (r : Record) (p : Payload) : MethodResult :=
  (buildWorkitem { r with polarionRecord := p },
   [ServiceCall.getTestCaseRecords r.testRunUri r.testcase])

/-- Python `attr.startswith('_')`: for the one-character prefix this is
exactly "the first character is an underscore" (false on the empty name). -/
def underscoreFirst (k : String) : Bool :=
  match k.data with
  | c :: _ => c = Char.ofNat 95
  | [] => false

/-- The field bag `save` submits: every `__dict__` entry whose name does
not start with an underscore. -/
def publicBag (r : Record) : List (String × Value) :=
  r.dict.filter (fun p => !underscoreFirst p.1)

/-- `Record.save`: build the public field bag, call `executeTest`, then
reload from the server's stored state. A failing `executeTest`
propagates (spec: `RemoteWriteFailure`) with the record untouched. -/
def save (env : Env) (r : Record) : MethodResult :=
  let bag := publicBag r
  let call := ServiceCall.executeTest r.testRunUri bag
  if env.executeTestFails then
    (.error (.remoteWriteFailure, r), [call])
  else
    ((reloadFromPolarion r (env.serverStore bag)).1,
     call :: (reloadFromPolarion r (env.serverStore bag)).2)

/-- `Record.setComment`: wrap the text as `TextType(content, 'text/html',
contentLossy=False)` and store it; no service call. -/
def setComment (r : Record) (comment : String) : Record × List ServiceCall :=
  ({ r with dict := (setattr r.dict "comment"
      (Value.text ⟨comment, "text/html", false⟩)) }, [])

/-- `Record.getResult`: `ResultType(self.result.id)` when `result` is not
`None`, else `ResultType.No`. -/
def getResult (r : Record) : Except RecErr ResultType :=
  match getattr r.dict "result" with
  | Option.none => .error .attributeError
  | some Value.none => .ok ResultType.No
  | some (Value.enumOptionId id) =>
    match ResultType.ofId id with
    | some rt => .ok rt
    | Option.none => .error .valueError
  | some _ => .error .unmodeled

/-- `Record.getTestCaseName`: return `self._testcase_name`. -/
def getTestCaseName (r : Record) : String :=
  r.testcaseName

/-- The second half of `Record.setResult`, after the optional comment:
set the result id — `self.result.id = result.value` when the attribute is
not `None` (in-place mutation), `self.result = EnumOptionIdType(id=…)`
otherwise — then `save`. -/
def setResultCore (env : Env) (r1 : Record) (res : ResultType) : MethodResult :=
  match getattr r1.dict "result" with
  | Option.none => (.error (.attributeError, r1), [])
  | some Value.none =>
      save env { r1 with dict := (setattr r1.dict "result"
        (Value.enumOptionId res.value)) }
  | some (Value.enumOptionId _) =>
      save env { r1 with dict := (setattr r1.dict "result"
        (Value.enumOptionId res.value)) }
  | some _ => (.error (.unmodeled, r1), [])

/-- `Record.setResult (result = FAILED, comment = None)`: optionally set
the comment, then set the result id and `save`. -/
def setResult (env : Env) (r : Record)
    (res : ResultType := ResultType.FAILED)
    (comment : Option String := Option.none) : MethodResult :=
  match comment with
  | some c => setResultCore env (setComment r c).1 res
  | Option.none => setResultCore env r res

/-- `Record.hasAttachment`: `self.attachments != None`. -/
def hasAttachment (r : Record) : Except RecErr Bool :=
  match getattr r.dict "attachments" with
  | Option.none => .error .attributeError
  | some Value.none => .ok false
  | some _ => .ok true

/-- The search loop of `getAttachment`: `url` starts as `None` and is
overwritten on every entry whose file name matches. -/
def selectUrl (entries : List Attachment) (file_name : String) : Option String :=
  entries.foldl
    (fun url a => if a.fileName = file_name then some a.url else url)
    Option.none

/-- `Record.getAttachment`: linear search of the attachments collection,
then an authenticated GET of the selected URL (`http` models the
transport, credentials included); a non-ok response raises (spec:
`AttachmentDownloadFailed`), no match raises (spec: `AttachmentNotFound`). -/
def getAttachment (http : String → HttpResp) (r : Record)
    (file_name : String) : Except RecErr (List Nat) :=
  match getattr r.dict "attachments" with
  | some (Value.attachments entries) =>
    match selectUrl entries file_name with
    | some url =>
      let resp := http url
      if resp.ok then .ok resp.content
      else .error .attachmentDownloadFailed
    | Option.none => .error .attachmentNotFound
  | _ => .error .attributeError

/-- Python list indexing `l[i]` for `i : Int`: non-negative indices are
`0 ≤ i < len`, negative indices address from the end (`l[-1]` is the last
element); anything else is an `IndexError` (`none`). -/
def pyIndex (len : Nat) (i : Int) : Option Nat :=
  if 0 ≤ i then (if i < (len : Int) then some i.toNat else Option.none)
  else (if 0 ≤ i + (len : Int) then some (i + (len : Int)).toNat else Option.none)

/-- A fresh `TestStepResultType()`: result and comment unset. -/
def emptyStep : TestStepResult :=
  { result := Option.none, comment := Option.none }

/-- The lazy initialization at the head of `setTestStepResult`: reading
`self.testStepResults` raises when the attribute is absent; when it is
`None`, query `getTestSteps(self.testCaseURI)` for the step count and
allocate that many fresh `TestStepResultType` slots. -/
def initStepResults (env : Env) (r : Record) :
    Except (RecErr × Record) (Record × List ServiceCall) :=
  match getattr r.dict "testStepResults" with
  | Option.none => .error (.attributeError, r)
  | some Value.none =>
    match getattr r.dict "testCaseURI" with
    | Option.none => .error (.attributeError, r)
    | some tcv =>
      .ok ({ r with dict := (setattr r.dict "testStepResults"
              (Value.stepResults
                (List.replicate (env.stepsCount.getD 0) emptyStep))) },
           [ServiceCall.getTestSteps tcv])
  | some _ => .ok (r, [])

/-- The slot assignment and unconditional `save` at the tail of
`setTestStepResult`: when `step_number < len(collection)` (Python integer
comparison), assign the slot's result id — Python list indexing, so a
negative `step_number` addresses from the end and raises `IndexError`
below `-len` — and, when given, its rich-text comment; then `save`, also
when the guard failed. -/
def setStepCore (env : Env) (r1 : Record) (step_number : Int)
    (res : ResultType) (comment : Option String) : MethodResult :=
  match getattr r1.dict "testStepResults" with
  | some (Value.stepResults steps) =>
    if step_number < (steps.length : Int) then
      match pyIndex steps.length step_number with
      | Option.none => (.error (.indexError, r1), [])
      | some k =>
        match steps.get? k with
        | Option.none => (.error (.indexError, r1), [])
        | some old =>
          let upd1 := { old with result := some res.value }
          let upd2 := match comment with
            | some c => { upd1 with comment := some ⟨c, "text/html", false⟩ }
            | Option.none => upd1
          save env { r1 with dict := (setattr r1.dict "testStepResults"
                      (Value.stepResults (steps.set k upd2))) }
    else
      save env r1
  | _ => (.error (.unmodeled, r1), [])

/-- `Record.setTestStepResult(step_number, result, comment=None)`: lazy
initialization, then slot assignment and `save`; the traces of the two
halves concatenate. -/
def setTestStepResult (env : Env) (r : Record) (step_number : Int)
    (res : ResultType) (comment : Option String := Option.none) : MethodResult :=
  match initStepResults env r with
  | .error e => (.error e, [])
  | .ok (r1, tr1) =>
    ((setStepCore env r1 step_number res comment).1,
     tr1 ++ (setStepCore env r1 step_number res comment).2)

/-- `os.path.split(file_path)[1]`: the component after the last slash. -/
def basenameOf (file_path : String) : String :=
  String.mk ((splitOnChar (Char.ofNat 47) file_path.data).getLastD [])

/-- `Record.addAttachment(file_path, title)`: read the local file, submit
it with `addAttachmentToTestRecord(test_run.uri, index, file_name, title,
bytes)`, then reload. An unreadable source raises (spec:
`LocalFileNotFound`). -/
def addAttachment (env : Env) (r : Record) (file_path : String)
    (title : String) : MethodResult :=
  match env.readFile file_path with
  | Option.none => (.error (.localFileNotFound, r), [])
  | some content =>
    let call := ServiceCall.addAttachmentToTestRecord r.testRunUri r.index
      (basenameOf file_path) title content
    ((reloadFromPolarion r env.fetchPayload).1,
     call :: (reloadFromPolarion r env.fetchPayload).2)

/-- `Record.deleteAttachment(file_name)`: instruct the service to delete,
then reload. -/
def deleteAttachment (env : Env) (r : Record) (file_name : String) : MethodResult :=
  let call := ServiceCall.deleteAttachmentFromTestRecord r.testRunUri r.index
    file_name
  ((reloadFromPolarion r env.fetchPayload).1,
   call :: (reloadFromPolarion r env.fetchPayload).2)

instance {ε α : Type} [DecidableEq ε] [DecidableEq α] : DecidableEq (Except ε α) :=
  fun a b =>
    match a, b with
    | .ok x, .ok y =>
        if h : x = y then .isTrue (by rw [h]) else .isFalse (by simp [h])
    | .error x, .error y =>
        if h : x = y then .isTrue (by rw [h]) else .isFalse (by simp [h])
    | .ok _, .error _ => .isFalse (by simp)
    | .error _, .ok _ => .isFalse (by simp)

/-- The record object's state after a method returns or raises. -/
def stateOf : Except (RecErr × Record) Record → Record
  | .ok r => r
  | .error (_, r) => r

/-- The payload, once flattened over any dict, leaves key `k` bound to `v`. -/
def payloadSets (p : Payload) (k : String) (v : Value) : Prop :=
  ∀ d, getattr (flattenInto d p.attrs) k = some v

/-- The payload's `testCaseURI` is present and splits into at least two
parts, so `_buildWorkitemFromPolarion` succeeds on it. -/
def payloadParses (p : Payload) : Prop :=
  ∃ uri a nm t, p.testCaseURI = some uri ∧
    splitOnChar (Char.ofNat 125) uri.data = a :: nm :: t

/-- The server accepts writes of the `result` field: after `executeTest bag`,
a reload sees a payload that reproduces the submitted `result` value and
that rebuilds successfully. -/
def acceptsResultWrite (env : Env) : Prop :=
  ∀ bag v, getattr bag "result" = some v →
    payloadSets (env.serverStore bag) "result" v ∧
    payloadParses (env.serverStore bag)

/-- `r'` carries the same identity (`_test_run.uri`, `_index`) as `r`. -/
def sameIdentity (r r' : Record) : Prop :=
  r'.testRunUri = r.testRunUri ∧ r'.index = r.index

/-- A sample payload: one sub-mapping holding the well-known fields, with
a parsable `testCaseURI`. -/
def exPayload : Payload :=
  { attrs := [("v",
      [("result", Value.none), ("comment", Value.none),
       ("testStepResults", Value.none),
       ("attachments", Value.attachments []),
       ("executed", Value.str "2021-01-01"),
       ("testCaseURI", Value.str "{ns}Proj/TC-123")])],
    testCaseURI := some "{ns}Proj/TC-123",
    defectURI := Value.none }

/-- A sample record built from `exPayload`. -/
def exRecord : Record :=
  stateOf (Record.init "testrun-uri" 2 exPayload)

/-- A sample environment whose server always answers with `exPayload`. -/
def exEnv : Env :=
  { stepsCount := some 3, serverStore := fun _ => exPayload,
    fetchPayload := exPayload, executeTestFails := false,
    readFile := fun _ => some [1, 2, 3] }

/-- `exEnv` with a failing `executeTest`. -/
def exEnvFail : Env :=
  { exEnv with executeTestFails := true }

/-- An echoing server: the reload payload reproduces the submitted
`result` value (last write in its single sub-mapping). -/
def exEchoStore : List (String × Value) → Payload := fun bag =>
  { attrs := [("v", [("result", (getattr bag "result").getD Value.none)])],
    testCaseURI := some "{e}TC-9", defectURI := Value.none }

/-- `exEnv` with the echoing server. -/
def exEnvEcho : Env :=
  { exEnv with serverStore := exEchoStore }

/-- `exRecord` with an initialized, empty step-results collection. -/
def exRecordSteps : Record :=
  { exRecord with dict := (setattr exRecord.dict "testStepResults"
      (Value.stepResults [])) }

/-- `exRecord` with two attachments sharing one file name. -/
def exRecordAtts : Record :=
  { exRecord with dict := (setattr exRecord.dict "attachments"
      (Value.attachments [⟨"a.txt", "u1"⟩, ⟨"a.txt", "u2"⟩])) }

/-- A transport that succeeds, with distinct bodies per URL. -/
def exHttpOk : String → HttpResp := fun u =>
  if u = "u2" then ⟨true, [7]⟩ else ⟨true, [1]⟩

/-- A transport whose responses are never ok. -/
def exHttpBad : String → HttpResp := fun _ => ⟨false, []⟩

/-! Basic lemmas about the dict operations and the split. -/

theorem getattr_setattr (d : List (String × Value)) (k q : String) (v : Value) :
    getattr (setattr d k v) q = if k = q then some v else getattr d q := by
  induction d with
  | nil => simp [setattr, getattr]
  | cons p d ih =>
    obtain ⟨pk, pv⟩ := p
    by_cases h : pk = k
    · subst h
      by_cases hq : pk = q
      · subst hq; simp [setattr, getattr]
      · simp [setattr, getattr, hq]
    · by_cases hq : pk = q
      · subst hq
        have hkq : ¬ k = pk := fun hh => h hh.symm
        simp [setattr, getattr, h, hkq]
      · simp [setattr, getattr, h, hq, ih]

theorem getattr_filterP (P : String → Bool) (d : List (String × Value))
    (k : String) (h : P k = true) :
    getattr (d.filter fun p => P p.1) k = getattr d k := by
  induction d with
  | nil => simp
  | cons p d ih =>
    by_cases hp : P p.1
    · simp [List.filter, hp, getattr, ih]
    · by_cases hq : p.1 = k
      · exact absurd (hq ▸ h) (by simpa using hp)
      · simp [List.filter, hp, getattr, hq, ih]

theorem splitOnChar_of_not_mem (c : Char) (l : List Char) (h : c ∉ l) :
    splitOnChar c l = [l] := by
  induction l with
  | nil => rfl
  | cons x xs ih =>
    have hx : ¬ x = c := fun hxc => h (hxc ▸ List.mem_cons_self x xs)
    have hxs : c ∉ xs := fun hm => h (List.mem_cons_of_mem x hm)
    simp [splitOnChar, hx, ih hxs]

theorem splitOnChar_append (c : Char) (a b : List Char) (ha : c ∉ a) :
    splitOnChar c (a ++ c :: b) = a :: splitOnChar c b := by
  induction a with
  | nil => simp [splitOnChar]
  | cons x xs ih =>
    have hx : ¬ x = c := fun hxc => ha (hxc ▸ List.mem_cons_self x xs)
    have hxs : c ∉ xs := fun hm => ha (List.mem_cons_of_mem x hm)
    simp only [List.cons_append, splitOnChar, if_neg hx]
    simp only [List.append_eq]
    rw [ih hxs]

theorem selectUrl_foldl (fn : String) (l : List Attachment) : ∀ acc : Option String,
    l.foldl (fun url a => if a.fileName = fn then some a.url else url) acc
      = Option.or ((l.reverse.find? fun a => a.fileName == fn).map Attachment.url) acc := by
  induction l with
  | nil => intro acc; rfl
  | cons x xs ih =>
    intro acc
    rw [List.foldl_cons, ih, List.reverse_cons, List.find?_append]
    cases hf : xs.reverse.find? fun a => a.fileName == fn with
    | some a => simp [Option.orElse, Option.or]
    | none =>
      by_cases hx : x.fileName = fn
      · have hb : (x.fileName == fn) = true := by simp [hx]
        simp [Option.orElse, List.find?, hx, hb, Option.or]
      · have hb : (x.fileName == fn) = false := by simp [hx]
        simp [Option.orElse, List.find?, hx, hb, Option.or]

theorem selectUrl_eq_find (fn : String) (l : List Attachment) :
    selectUrl l fn = (l.reverse.find? fun a => a.fileName == fn).map Attachment.url := by
  rw [selectUrl, selectUrl_foldl]
  cases (l.reverse.find? fun a => a.fileName == fn).map Attachment.url <;> rfl

theorem save_trace_head (env : Env) (r : Record) :
    (save env r).2.head? = some (ServiceCall.executeTest r.testRunUri (publicBag r)) := by
  by_cases h : env.executeTestFails <;> simp [save, h]

theorem getattr_publicBag (r : Record) (k : String)
    (h : underscoreFirst k = false) :
    getattr (publicBag r) k = getattr r.dict k := by
  unfold publicBag
  exact getattr_filterP (fun s => !underscoreFirst s) r.dict k
    (by show (!underscoreFirst k) = true; rw [h]; rfl)

theorem save_ok_field (env : Env) (r2 : Record) (v : Value)
    (hok : env.executeTestFails = false)
    (hsets : payloadSets (env.serverStore (publicBag r2)) "result" v)
    (hparses : payloadParses (env.serverStore (publicBag r2))) :
    ∃ r' tr, save env r2 = (.ok r', tr) ∧ getattr r'.dict "result" = some v := by
  obtain ⟨uri, al, nm, tl, htc, hsp⟩ := hparses
  refine ⟨{ r2 with
            polarionRecord := env.serverStore (publicBag r2),
            dict := (flattenInto r2.dict (env.serverStore (publicBag r2)).attrs),
            testcase := uri, testcaseName := (String.mk nm),
            defect := (env.serverStore (publicBag r2)).defectURI },
          [ServiceCall.executeTest r2.testRunUri (publicBag r2),
           ServiceCall.getTestCaseRecords r2.testRunUri r2.testcase], ?_, ?_⟩
  · unfold save reloadFromPolarion buildWorkitem
    simp only [hok, Bool.false_eq_true, if_false, htc, hsp]
  · show getattr (flattenInto r2.dict (env.serverStore (publicBag r2)).attrs)
        "result" = some v
    exact hsets r2.dict

/-! Identity preservation of every state transition. -/

theorem buildWorkitem_ident (r : Record) :
    sameIdentity r (stateOf (buildWorkitem r)) := by
  unfold buildWorkitem
  split
  · exact ⟨rfl, rfl⟩
  · split
    · exact ⟨rfl, rfl⟩
    · exact ⟨rfl, rfl⟩

theorem reload_ident (r : Record) (p : Payload) :
    sameIdentity r (stateOf (reloadFromPolarion r p).1) :=
  buildWorkitem_ident { r with polarionRecord := p }

theorem save_ident (env : Env) (r : Record) :
    sameIdentity r (stateOf (save env r).1) := by
  unfold save
  by_cases h : env.executeTestFails
  · simp [h, stateOf, sameIdentity]
  · simpa [h] using reload_ident r (env.serverStore (publicBag r))

theorem setComment_ident (r : Record) (c : String) :
    sameIdentity r (setComment r c).1 :=
  ⟨rfl, rfl⟩

theorem sameIdentity_comp {r r' r'' : Record}
    (h1 : sameIdentity r r') (h2 : sameIdentity r' r'') : sameIdentity r r'' :=
  ⟨h2.1.trans h1.1, h2.2.trans h1.2⟩

theorem setResultCore_ident (env : Env) (r1 : Record) (res : ResultType) :
    sameIdentity r1 (stateOf (setResultCore env r1 res).1) := by
  unfold setResultCore
  split
  · exact ⟨rfl, rfl⟩
  · exact save_ident env _
  · exact save_ident env _
  · exact ⟨rfl, rfl⟩

theorem setResult_ident (env : Env) (r : Record) (res : ResultType)
    (cm : Option String) :
    sameIdentity r (stateOf (setResult env r res cm).1) := by
  unfold setResult
  cases cm with
  | none => exact setResultCore_ident env r res
  | some c =>
      exact sameIdentity_comp (setComment_ident r c)
        (setResultCore_ident env (setComment r c).1 res)

theorem initStepResults_ident (env : Env) (r : Record) :
    sameIdentity r (stateOf ((initStepResults env r).map Prod.fst)) := by
  unfold initStepResults
  split
  · exact ⟨rfl, rfl⟩
  · split
    · exact ⟨rfl, rfl⟩
    · exact ⟨rfl, rfl⟩
  · exact ⟨rfl, rfl⟩

theorem setStepCore_ident (env : Env) (r1 : Record) (n : Int)
    (res : ResultType) (cm : Option String) :
    sameIdentity r1 (stateOf (setStepCore env r1 n res cm).1) := by
  unfold setStepCore
  split
  · split
    · split
      · exact ⟨rfl, rfl⟩
      · split
        · exact ⟨rfl, rfl⟩
        · exact save_ident env _
    · exact save_ident env _
  · exact ⟨rfl, rfl⟩

theorem setTestStepResult_ident (env : Env) (r : Record) (n : Int)
    (res : ResultType) (cm : Option String) :
    sameIdentity r (stateOf (setTestStepResult env r n res cm).1) := by
  unfold setTestStepResult
  cases hi : initStepResults env r with
  | error e =>
    obtain ⟨e1, re⟩ := e
    have := initStepResults_ident env r
    rw [hi] at this
    exact this
  | ok pr =>
    obtain ⟨r1, tr1⟩ := pr
    have h1 : sameIdentity r r1 := by
      have := initStepResults_ident env r
      rw [hi] at this
      exact this
    exact sameIdentity_comp h1 (setStepCore_ident env r1 n res cm)

theorem addAttachment_ident (env : Env) (r : Record) (fp t : String) :
    sameIdentity r (stateOf (addAttachment env r fp t).1) := by
  unfold addAttachment
  split
  · exact ⟨rfl, rfl⟩
  · exact reload_ident r env.fetchPayload

theorem deleteAttachment_ident (env : Env) (r : Record) (fn : String) :
    sameIdentity r (stateOf (deleteAttachment env r fn).1) :=
  reload_ident r env.fetchPayload

/-! The claims. -/

/-- Claim C2: for every record state, the field bag submitted by `save`
to the service's `executeTest` call is exactly the public part of the
record's attribute dict: an entry is in the bag iff it is an attribute of
the record whose name does not start with the underscore prefix, kept
verbatim (unknown fields included); the underscore-prefixed attributes of
the object are the structure fields of `Record` plus the filtered dict
entries, and none of them reach the bag. -/
theorem save_submits_exactly_public_fields (env : Env) (r : Record) :
    (save env r).2.head?
        = some (ServiceCall.executeTest r.testRunUri (publicBag r))
    ∧ ∀ k v, ((k, v) ∈ publicBag r ↔
        (k, v) ∈ r.dict ∧ underscoreFirst k = false) := by
  refine ⟨save_trace_head env r, ?_⟩
  intro k v
  simp [publicBag, List.mem_filter]

/-- Claim C3: when the remote `executeTest` call inside `save` fails, the
failure propagates (`RemoteWriteFailure`) with the record's in-memory
state exactly as it was on entry, and the trace is the lone `executeTest`
call: the reload (`getTestCaseRecords`) is never reached. -/
theorem save_failure_propagates_state_intact (env : Env) (r : Record)
    (h : env.executeTestFails = true) :
    save env r =
      (.error (.remoteWriteFailure, r),
       [ServiceCall.executeTest r.testRunUri (publicBag r)]) := by
  simp [save, h]

/-- Witness for C3 at a concrete environment and record. -/
theorem save_failure_propagates_state_intact_witness :
    save exEnvFail exRecord =
      (.error (.remoteWriteFailure, exRecord),
       [ServiceCall.executeTest exRecord.testRunUri (publicBag exRecord)]) :=
  save_failure_propagates_state_intact exEnvFail exRecord rfl

/-- Claim C7: `hasAttachment` answers true iff the `attachments`
attribute's value is non-null; an empty-but-present collection counts. -/
theorem hasAttachment_iff_nonnull (r : Record) (v : Value)
    (h : getattr r.dict "attachments" = some v) :
    (hasAttachment r = .ok true ↔ v ≠ Value.none)
    ∧ (hasAttachment r = .ok false ↔ v = Value.none) := by
  unfold hasAttachment
  rw [h]
  cases v <;> simp

/-- Witness for C7: an empty-but-present attachments collection yields
true. -/
theorem hasAttachment_iff_nonnull_witness :
    hasAttachment exRecord = .ok true :=
  (hasAttachment_iff_nonnull exRecord (Value.attachments [])
    (by decide)).1.mpr (by decide)

/-- Claim C8: `setComment` stores the text wrapped as rich content under
the `comment` attribute, changes no other attribute and none of the
underscore-prefixed fields, and issues no service call (so no save). -/
theorem setComment_local_frame (r : Record) (c : String) :
    (setComment r c).2 = []
    ∧ getattr (setComment r c).1.dict "comment"
        = some (Value.text ⟨c, "text/html", false⟩)
    ∧ (∀ k, k ≠ "comment" →
        getattr (setComment r c).1.dict k = getattr r.dict k)
    ∧ (setComment r c).1.testRunUri = r.testRunUri
    ∧ (setComment r c).1.index = r.index
    ∧ (setComment r c).1.polarionRecord = r.polarionRecord
    ∧ (setComment r c).1.testcase = r.testcase
    ∧ (setComment r c).1.testcaseName = r.testcaseName
    ∧ (setComment r c).1.defect = r.defect := by
  refine ⟨rfl, ?_, ?_, rfl, rfl, rfl, rfl, rfl, rfl⟩
  · show getattr (setattr r.dict "comment" _) "comment" = _
    rw [getattr_setattr]
    simp
  · intro k hk
    show getattr (setattr r.dict "comment" _) k = _
    rw [getattr_setattr, if_neg (Ne.symm hk)]

/-- Witness for C8 at a concrete record, comment and other key. -/
theorem setComment_local_frame_witness :
    (setComment exRecord "hello").2 = []
    ∧ getattr (setComment exRecord "hello").1.dict "result"
        = getattr exRecord.dict "result" :=
  ⟨(setComment_local_frame exRecord "hello").1,
   (setComment_local_frame exRecord "hello").2.2.1 "result" (by decide)⟩

/-- Claim C9: the identity `(test_run_reference, index)` is immutable:
every operation of the projection — setResult, setComment,
setTestStepResult, save, reload, addAttachment, deleteAttachment — leaves
the stored test run reference and index unchanged, on its success and on
its error paths alike. -/
theorem record_identity_immutable (env : Env) (r : Record)
    (res : ResultType) (cm : Option String) (c fp t fn : String) (n : Int) :
    sameIdentity r (stateOf (setResult env r res cm).1)
    ∧ sameIdentity r (setComment r c).1
    ∧ sameIdentity r (stateOf (setTestStepResult env r n res cm).1)
    ∧ sameIdentity r (stateOf (save env r).1)
    ∧ sameIdentity r (stateOf (reloadFromPolarion r env.fetchPayload).1)
    ∧ sameIdentity r (stateOf (addAttachment env r fp t).1)
    ∧ sameIdentity r (stateOf (deleteAttachment env r fn).1) :=
  ⟨setResult_ident env r res cm, setComment_ident r c,
   setTestStepResult_ident env r n res cm, save_ident env r,
   reload_ident r env.fetchPayload, addAttachment_ident env r fp t,
   deleteAttachment_ident env r fn⟩

/-- Claim C5: for an attachments collection and a file name, no matching
entry means `AttachmentNotFound`; with a matching entry, the fetched URL's
response decides between the raw bytes (ok) and
`AttachmentDownloadFailed` (not ok). -/
theorem getAttachment_trichotomy (http : String → HttpResp) (r : Record)
    (entries : List Attachment) (fn : String)
    (h : getattr r.dict "attachments" = some (Value.attachments entries)) :
    ((∀ a ∈ entries, a.fileName ≠ fn) →
       getAttachment http r fn = .error .attachmentNotFound)
    ∧ (∀ u, selectUrl entries fn = some u →
        ((http u).ok = true → getAttachment http r fn = .ok (http u).content)
        ∧ ((http u).ok = false →
            getAttachment http r fn = .error .attachmentDownloadFailed)) := by
  constructor
  · intro hno
    have hfind : entries.reverse.find? (fun a => a.fileName == fn)
        = Option.none := by
      rw [List.find?_eq_none]
      intro a ha
      simpa using hno a (List.mem_reverse.mp ha)
    have hsel : selectUrl entries fn = Option.none := by
      rw [selectUrl_eq_find, hfind]
      rfl
    simp [getAttachment, h, hsel]
  · intro u hu
    constructor
    · intro hok
      simp [getAttachment, h, hu, hok]
    · intro hok
      simp [getAttachment, h, hu, hok]

/-- Witness for C5: a record whose attachments collection has no entry
named `missing.txt`. -/
theorem getAttachment_trichotomy_witness :
    getAttachment exHttpOk exRecordAtts "missing.txt"
      = .error .attachmentNotFound :=
  (getAttachment_trichotomy exHttpOk exRecordAtts
      [⟨"a.txt", "u1"⟩, ⟨"a.txt", "u2"⟩] "missing.txt" (by decide)).1
    (by decide)

/-- Claim C10: with two or more entries matching the file name, the loop's
candidate URL is overwritten on every match, so `getAttachment` fetches
from the URL of the last matching entry in collection order (the first
match of the reversed collection). -/
theorem getAttachment_fetches_last_match (http : String → HttpResp)
    (r : Record) (entries : List Attachment) (fn : String) (a : Attachment)
    (h : getattr r.dict "attachments" = some (Value.attachments entries))
    (_hdup : 2 ≤ (entries.filter fun x => x.fileName == fn).length)
    (hlast : entries.reverse.find? (fun x => x.fileName == fn) = some a) :
    getAttachment http r fn =
      if (http a.url).ok then .ok (http a.url).content
      else .error .attachmentDownloadFailed := by
  have hsel : selectUrl entries fn = some a.url := by
    rw [selectUrl_eq_find, hlast]
    rfl
  simp [getAttachment, h, hsel]

/-- Witness for C10: two entries named `a.txt`; the fetch uses the second
entry's URL `u2`, whose response body is `[7]`. -/
theorem getAttachment_fetches_last_match_witness :
    getAttachment exHttpOk exRecordAtts "a.txt" = .ok [7] := by
  have := getAttachment_fetches_last_match exHttpOk exRecordAtts
    [⟨"a.txt", "u1"⟩, ⟨"a.txt", "u2"⟩] "a.txt" ⟨"a.txt", "u2"⟩
    (by decide) (by decide) (by decide)
  simpa [exHttpOk] using this

/-- Claim C6: building the projection from a payload whose testcase
reference is `{ns}Proj/TC-123`-shaped (a single brace delimiter) succeeds
and `getTestCaseName` returns the component after the delimiter; an
absent or brace-free (unparsable) reference fails the build
(`MalformedReference`). -/
theorem testCaseName_derivation (u : String) (i : Int) (p : Payload) :
    (∀ (a b : List Char) (uri : String), p.testCaseURI = some uri →
        uri.data = a ++ (Char.ofNat 125) :: b → (Char.ofNat 125) ∉ a →
        (Char.ofNat 125) ∉ b →
        ∃ r, Record.init u i p = .ok r ∧ getTestCaseName r = String.mk b)
    ∧ (p.testCaseURI = Option.none →
        ∃ r, Record.init u i p = .error (.malformedReference, r))
    ∧ (∀ uri, p.testCaseURI = some uri → (Char.ofNat 125) ∉ uri.data →
        ∃ r, Record.init u i p = .error (.malformedReference, r)) := by
  refine ⟨?_, ?_, ?_⟩
  · intro a b uri htc hdata ha hb
    have hsp : splitOnChar (Char.ofNat 125) uri.data = a :: b :: [] := by
      rw [hdata, splitOnChar_append _ _ _ ha, splitOnChar_of_not_mem _ _ hb]
    refine ⟨{ testRunUri := u, index := i, polarionRecord := p,
              testcase := uri, testcaseName := (String.mk b),
              defect := p.defectURI,
              dict := (flattenInto [] p.attrs) }, ?_, rfl⟩
    unfold Record.init buildWorkitem
    simp only [htc, hsp]
  · intro htc
    refine ⟨{ testRunUri := u, index := i, polarionRecord := p,
              testcase := "", testcaseName := "", defect := Value.none,
              dict := (flattenInto [] p.attrs) }, ?_⟩
    unfold Record.init buildWorkitem
    simp only [htc]
  · intro uri htc hnb
    have hsp : splitOnChar (Char.ofNat 125) uri.data = uri.data :: [] :=
      splitOnChar_of_not_mem _ _ hnb
    refine ⟨{ testRunUri := u, index := i, polarionRecord := p,
              testcase := uri, testcaseName := "", defect := Value.none,
              dict := (flattenInto [] p.attrs) }, ?_⟩
    unfold Record.init buildWorkitem
    simp only [htc, hsp]

/-- Witness for C6 at the spec's example reference. -/
theorem testCaseName_derivation_witness :
    ∃ r, Record.init "testrun-uri" 2 exPayload = .ok r ∧
      getTestCaseName r = String.mk "Proj/TC-123".data :=
  (testCaseName_derivation "testrun-uri" 2 exPayload).1
    "\x7bns".data "Proj/TC-123".data "{ns}Proj/TC-123"
    rfl (by decide) (by decide) (by decide)

/-- Claim C1 counterexample: `step_number` is a Python integer, and
`-1` is out of bounds for an empty step-results collection, yet
`setTestStepResult` raises `IndexError` there — the guard `-1 < 0` passes
and the subscript fails — and never reaches `save`: the returned trace is
empty, against the claim's "raises no error … yet still performs save". -/
theorem setTestStepResult_neg_oob_raises :
    setTestStepResult exEnv exRecordSteps (-1) ResultType.PASSED
      = (.error (.indexError, exRecordSteps), []) := by decide

/-- Claim C1 (amended): for every step number at or above the collection's
length — every non-negative out-of-bounds index — `setTestStepResult`
raises no error and mutates no slot: it behaves exactly as a bare `save`
of the untouched record, whose trace still opens with the `executeTest`
call (so the network round-trip and reload still happen). -/
theorem setTestStepResult_oob_still_saves (env : Env) (r : Record)
    (steps : List TestStepResult) (n : Int) (res : ResultType)
    (cm : Option String)
    (h : getattr r.dict "testStepResults" = some (Value.stepResults steps))
    (hn : (steps.length : Int) ≤ n) :
    setTestStepResult env r n res cm = save env r
    ∧ (setTestStepResult env r n res cm).2.head?
        = some (ServiceCall.executeTest r.testRunUri (publicBag r)) := by
  have hinit : initStepResults env r = .ok (r, []) := by
    unfold initStepResults
    rw [h]
  have hcore : setStepCore env r n res cm = save env r := by
    unfold setStepCore
    simp only [h]
    rw [if_neg (not_lt.mpr hn)]
  have hmain : setTestStepResult env r n res cm = save env r := by
    unfold setTestStepResult
    simp only [hinit]
    rw [hcore]
    simp
  refine ⟨hmain, ?_⟩
  rw [hmain]
  exact save_trace_head env r

/-- Witness for the amended C1: index 5 on an empty collection. -/
theorem setTestStepResult_oob_still_saves_witness :
    setTestStepResult exEnv exRecordSteps 5 ResultType.PASSED
      = save exEnv exRecordSteps :=
  (setTestStepResult_oob_still_saves exEnv exRecordSteps [] 5
    ResultType.PASSED Option.none (by decide) (by decide)).1

/-- The concrete echoing environment satisfies `acceptsResultWrite`. -/
theorem exEnvEcho_accepts : acceptsResultWrite exEnvEcho := by
  intro bag v h
  have hattrs : (exEnvEcho.serverStore bag).attrs = [("v", [("result", v)])] := by
    show (exEchoStore bag).attrs = _
    simp [exEchoStore, h]
  constructor
  · intro d
    rw [hattrs]
    show getattr (setattr d "result" v) "result" = some v
    rw [getattr_setattr]
    simp
  · exact ⟨"{e}TC-9", "\x7be".data, "TC-9".data, [], rfl, by decide⟩

/-- Claim C4: `setResult()` with no arguments writes the FAILED result id
into the `result` attribute — creating the holder when the attribute was
`None`, mutating it in place when it already held an id — and then saves;
when the server accepts the write (`acceptsResultWrite`) and the remote
call does not fail, the call succeeds and `getResult` on the resulting
state answers `FAILED`. -/
theorem setResult_default_failed (env : Env) (r : Record)
    (hres : getattr r.dict "result" = some Value.none ∨
        ∃ i, getattr r.dict "result" = some (Value.enumOptionId i))
    (hok : env.executeTestFails = false)
    (hacc : acceptsResultWrite env) :
    ∃ r' tr, setResult env r = (.ok r', tr) ∧
      getResult r' = .ok ResultType.FAILED := by
  have h0 : setResult env r = setResultCore env r ResultType.FAILED := rfl
  have hcore : setResult env r =
      save env { r with dict := (setattr r.dict "result"
        (Value.enumOptionId (ResultType.FAILED.value))) } := by
    rw [h0]
    rcases hres with h | ⟨i, h⟩ <;>
      (unfold setResultCore
       simp only [h])
  have hbag : getattr (publicBag { r with dict := (setattr r.dict "result"
      (Value.enumOptionId (ResultType.FAILED.value))) }) "result"
      = some (Value.enumOptionId (ResultType.FAILED.value)) := by
    rw [getattr_publicBag _ _ (by decide)]
    show getattr (setattr r.dict "result"
      (Value.enumOptionId (ResultType.FAILED.value))) "result" = _
    rw [getattr_setattr]
    simp
  obtain ⟨hsets, hparses⟩ := hacc _ _ hbag
  obtain ⟨r', tr, hsv, hres'⟩ := save_ok_field env _ _ hok hsets hparses
  refine ⟨r', tr, hcore.trans hsv, ?_⟩
  unfold getResult
  rw [hres']
  rfl

/-- Witness for C4: the sample record (whose `result` attribute is `None`)
against the echoing environment. -/
theorem setResult_default_failed_witness :
    ∃ r' tr, setResult exEnvEcho exRecord = (.ok r', tr) ∧
      getResult r' = .ok ResultType.FAILED :=
  setResult_default_failed exEnvEcho exRecord (Or.inl (by decide)) rfl
    exEnvEcho_accepts

end Polarion
